import Mathlib

/-!
Verification development for the dreamr video-generation pipeline.

The definitions below are a shallow embedding of the TypeScript sources:
the video-generation orchestrator (class DreamVideoGenerator with
generateVideo, createGeneration, extendVideo, pollForCompletion,
extractVideoUrl, notifyProgress and the module-level singleton helpers
onVideoGenerationProgress and generateDreamVideoWithProgress) and the
prompt-enhancement service (class DreamEnhancementService with
enhanceDream and notifyProgress).

JavaScript strings are modelled as lists of characters (JSStr) so that
the JavaScript primitives used by the code (trim, includes, split,
string truthiness, the logical-or fallback idiom) can be given faithful
executable models with provable lemmas.  Network traffic is modelled by
an oracle: every fetch consumes a scripted NetResponse, which is either
a rejected promise (netErr), a non-2xx HTTP response (httpErr), or a
2xx response with a parsed JSON body (ok).  A thrown JavaScript
exception is modelled as Except.error carrying the error message.
-/

/-- JavaScript strings are modelled as lists of characters. -/
abbrev JSStr := List Char

/-- Model of the JavaScript string trim: drop whitespace from both ends. -/
def jsTrim (s : JSStr) : JSStr :=
  ((s.dropWhile Char.isWhitespace).reverse.dropWhile Char.isWhitespace).reverse

/-- JavaScript string truthiness for an optionally-present string field:
undefined, null and the empty string are falsy. -/
def truthyOS : Option JSStr → Bool
  | none => false
  | some s => !s.isEmpty

/-- Model of the JavaScript idiom `s || d` on strings: the empty string
falls back to the default. -/
def jsOrS (s d : JSStr) : JSStr := if s.isEmpty then d else s

/-- Model of the JavaScript idiom `o || d` where `o` is an optionally
present string: undefined and the empty string fall back to the default. -/
def jsOrO (o : Option JSStr) (d : JSStr) : JSStr :=
  match o with
  | some s => jsOrS s d
  | none => d

/-- Boolean test that sep occurs at the start of s. -/
def isPrefixB : List Char → List Char → Bool
  | [], _ => true
  | _ :: _, [] => false
  | a :: as, b :: bs => a == b && isPrefixB as bs

/-- Boolean test that sep occurs somewhere in s; model of
JavaScript String.prototype.includes. -/
def hasInfixB (sep : List Char) : List Char → Bool
  | [] => isPrefixB sep []
  | c :: rest => isPrefixB sep (c :: rest) || hasInfixB sep rest

/-- Fuelled worker for jsSplit.  Scans the string left to right; on a
leftmost match of sep it emits the accumulated piece and continues after
the separator, exactly like JavaScript String.prototype.split. -/
def jsSplitAuxF (sep : List Char) : Nat → List Char → List Char → List (List Char)
  | _, [], acc => [acc.reverse]
  | 0, s, acc => [acc.reverse ++ s]
  | fuel + 1, c :: rest, acc =>
    if isPrefixB sep (c :: rest) then
      acc.reverse :: jsSplitAuxF sep fuel (List.drop (sep.length - 1) rest) []
    else
      jsSplitAuxF sep fuel rest (c :: acc)

/-- Model of JavaScript String.prototype.split with a non-empty string
separator (leftmost-first matching, no limit). -/
def jsSplit (sep s : List Char) : List (List Char) :=
  jsSplitAuxF sep s.length s []

/-- Decimal rendering of a number, as a JSStr. -/
def natToJS (n : Nat) : JSStr := (Nat.repr n).data

/-- Model of JavaScript Math.round on an exact rational: round half
toward positive infinity. -/
def jsRound (q : ℚ) : Int := ⌊q + 1 / 2⌋

/-! ## Upstream response shapes (LumaGenerationResponse) -/

/-- Wrapper for objects that optionally carry a url field
(assets.videos and result in LumaGenerationResponse). -/
structure UrlHolder where
  url : Option JSStr
deriving DecidableEq

/-- The assets object of a LumaGenerationResponse. -/
structure LumaAssets where
  video : Option JSStr
  url : Option JSStr
  videos : Option UrlHolder
deriving DecidableEq

/-- Parsed JSON body of a 2xx generations response
(interface LumaGenerationResponse in the source). -/
structure LumaGenerationResponse where
  id : Option JSStr
  state : Option JSStr
  assets : Option LumaAssets
  result : Option UrlHolder
  failure_reason : Option JSStr
  error : Option JSStr
deriving DecidableEq

/-- A LumaGenerationResponse with every field absent. -/
def emptyLumaResponse : LumaGenerationResponse :=
  ⟨none, none, none, none, none, none⟩

/-- The outcome of one fetch call, as scripted by the test oracle:
a rejected promise carrying an error message, a non-2xx response with a
status code and body text, or a 2xx response with a parsed JSON body. -/
inductive NetResponse where
  | netErr (msg : JSStr)
  | httpErr (status : Nat) (body : JSStr)
  | ok (data : LumaGenerationResponse)

/-- Model of DreamVideoGenerator.extractVideoUrl: try assets.video, then
assets.url, then assets.videos.url, then result.url, first truthy field
wins; null when none is present and non-empty. -/
def extractVideoUrl (data : LumaGenerationResponse) : Option JSStr :=
  if truthyOS (data.assets.bind LumaAssets.video) then data.assets.bind LumaAssets.video
  else if truthyOS (data.assets.bind LumaAssets.url) then data.assets.bind LumaAssets.url
  else if truthyOS ((data.assets.bind LumaAssets.videos).bind UrlHolder.url) then
    (data.assets.bind LumaAssets.videos).bind UrlHolder.url
  else if truthyOS (data.result.bind UrlHolder.url) then data.result.bind UrlHolder.url
  else none

/-- The candidate url fields of a response, in the fixed resolution
order stated by the specification. -/
def urlCandidates (data : LumaGenerationResponse) : List (Option JSStr) :=
  [data.assets.bind LumaAssets.video,
   data.assets.bind LumaAssets.url,
   (data.assets.bind LumaAssets.videos).bind UrlHolder.url,
   data.result.bind UrlHolder.url]

/-- Modelled from the specification wording for comparison with
extractVideoUrl: the first present (non-empty) candidate field in the
fixed order, none when no candidate is present. -/
def firstPresentUrl (data : LumaGenerationResponse) : Option JSStr :=
  ((urlCandidates data).find? truthyOS).join

/-! ## Progress events and the poll loop (DreamVideoGenerator) -/

/-- The VideoGenerationStatus enum of the source. -/
inductive VideoGenerationStatus where
  | idle
  | starting
  | queued
  | generating
  | completed
  | error
deriving DecidableEq

/-- The VideoGenerationProgress snapshot broadcast to listeners. -/
structure VideoGenerationProgress where
  status : VideoGenerationStatus
  message : JSStr
  progress : Option Int
  attempt : Option Nat
  maxAttempts : Option Nat
  estimatedTimeRemaining : Option Int
deriving DecidableEq

/-- Boolean test for the queued state string. -/
def isQueuedState (st : Option JSStr) : Bool := st == some ("queued".data)

/-- Boolean test for the processing or generating state strings. -/
def isProcessingState (st : Option JSStr) : Bool :=
  st == some ("processing".data) || st == some ("generating".data)

/-- Boolean test for the terminal-success state strings. -/
def isSuccessState (st : Option JSStr) : Bool :=
  st == some ("completed".data) || st == some ("succeeded".data)

/-- Boolean test for the terminal-failure state strings. -/
def isFailureState (st : Option JSStr) : Bool :=
  st == some ("failed".data) || st == some ("error".data)

/-- The progress event pollForCompletion sends on an attempt that read a
2xx response, computed exactly as in the source: baseline
20 + (attempt / maxPollAttempts) * 70, capped at 40 when queued, floored
at 50 when processing or generating, 95 on terminal success; estimated
time remaining Math.max(120 - attempt * pollInterval, 10). -/
def mkPollEvent (attempt maxA interval : Nat) (st : Option JSStr) : VideoGenerationProgress :=
  let base : ℚ := 20 + ((attempt : ℚ) / (maxA : ℚ)) * 70
  let message : JSStr :=
    if isQueuedState st then "Video request queued for processing...".data
    else if isProcessingState st then "AI is dreaming your video...".data
    else if isSuccessState st then "Finalizing your dream video...".data
    else "AI is creating your dream video...".data
  let progressQ : ℚ :=
    if isQueuedState st then min base 40
    else if isProcessingState st then max base 50
    else if isSuccessState st then 95
    else base
  let est : Int := max ((120 : Int) - (attempt : Int) * (interval : Int)) 10
  ⟨.generating, message, some (jsRound progressQ), some (attempt + 1), some maxA, some est⟩

/-- The failure message pollForCompletion throws on a terminal-failure
state: data.failure_reason, else data.error, else Unknown error. -/
def failureMessage (data : LumaGenerationResponse) : JSStr :=
  "Video generation failed: ".data ++
    jsOrO data.failure_reason (jsOrO data.error ("Unknown error".data))

/-- The timeout message thrown when the poll budget is exhausted. -/
def timeoutMessage (maxA : Nat) : JSStr :=
  "Timed out waiting for video generation after ".data ++ natToJS maxA ++ " attempts".data

deriving instance DecidableEq for Except

/-- Outcome of the poll loop: the returned url or the thrown error
message, the progress events emitted, the number of GET calls made and
the number of sleeps taken. -/
structure PollRes where
  result : Except JSStr JSStr
  events : List VideoGenerationProgress
  gets : Nat
  sleeps : Nat
deriving DecidableEq

/-- Worker for pollForCompletion.  The recursion is on the number of
remaining loop iterations; the current attempt index is
maxA - remaining, and remaining = 1 corresponds to the final attempt
(attempt = maxA - 1), on which the catch block rethrows instead of
retrying.  A non-ok response sleeps and continues without throwing, so
on the final attempt it still falls out of the loop into the timeout
throw, while thrown errors (fetch rejection, terminal-failure status,
missing url on a completed response) are caught and retried except on
the final attempt, exactly as in the source. -/
def pollAux (maxA interval : Nat) (script : Nat → NetResponse) : Nat → PollRes
  | 0 => ⟨.error (timeoutMessage maxA), [], 0, 0⟩
  | remaining + 1 =>
    let attempt := maxA - (remaining + 1)
    match script attempt with
    | .netErr m =>
      if remaining = 0 then ⟨.error m, [], 1, 0⟩
      else
        let r := pollAux maxA interval script remaining
        ⟨r.result, r.events, r.gets + 1, r.sleeps + 1⟩
    | .httpErr _ _ =>
      let r := pollAux maxA interval script remaining
      ⟨r.result, r.events, r.gets + 1, r.sleeps + 1⟩
    | .ok data =>
      let ev := mkPollEvent attempt maxA interval data.state
      if isSuccessState data.state then
        match extractVideoUrl data with
        | some url => ⟨.ok url, [ev], 1, 0⟩
        | none =>
          if remaining = 0 then
            ⟨.error ("Video URL not found in completed response".data), [ev], 1, 0⟩
          else
            let r := pollAux maxA interval script remaining
            ⟨r.result, ev :: r.events, r.gets + 1, r.sleeps + 1⟩
      else if isFailureState data.state then
        if remaining = 0 then ⟨.error (failureMessage data), [ev], 1, 0⟩
        else
          let r := pollAux maxA interval script remaining
          ⟨r.result, ev :: r.events, r.gets + 1, r.sleeps + 1⟩
      else
        let r := pollAux maxA interval script remaining
        ⟨r.result, ev :: r.events, r.gets + 1, r.sleeps + 1⟩

/-- Model of DreamVideoGenerator.pollForCompletion: up to maxA GET
attempts against the scripted responses, with the retry, progress and
termination behaviour of the source. -/
def pollForCompletion (maxA interval : Nat) (script : Nat → NetResponse) : PollRes :=
  pollAux maxA interval script maxA

/-! ## The orchestrator (DreamVideoGenerator.generateVideo) -/

/-- The value returned by a successful generateVideo call. -/
structure GeneratedVideo where
  videoUrl : JSStr
  generationId : JSStr
  prompt : JSStr
  extendedPrompt : Option JSStr
deriving DecidableEq

/-- The five-star delimiter used by extend mode. -/
def starSep : JSStr := "*****".data

/-- The fixed continuation phrase used when no extension prompt is
supplied. -/
def defaultExtensionPrompt : JSStr := "Continue on with this video".data

/-- Model of the prompt-splitting prologue of generateVideo: the
processed first-stage prompt and the extension prompt, from the raw
prompt, the extend flag and the optional explicit extension prompt. -/
def splitForExtend (prompt : JSStr) (extendMode : Bool) (extensionPrompt : Option JSStr) :
    JSStr × JSStr :=
  let processed := jsTrim prompt
  let ext := jsOrO extensionPrompt defaultExtensionPrompt
  if extendMode && hasInfixB starSep prompt then
    let parts := jsSplit starSep prompt
    let p0 := jsOrS (jsTrim (parts.headD [])) prompt
    let e0 :=
      match parts.get? 1 with
      | some p1 => jsOrS (jsTrim p1) ext
      | none => ext
    (p0, e0)
  else
    (processed, ext)

/-- Model of DreamVideoGenerator.createGeneration: one POST whose
scripted outcome either yields the new generation id or throws. -/
def createGeneration (resp : NetResponse) : Except JSStr JSStr :=
  match resp with
  | .netErr m => .error m
  | .httpErr status body =>
    .error ("LumaLabs API error: ".data ++ natToJS status ++ " - ".data ++ body)
  | .ok data =>
    if truthyOS data.id then .ok (data.id.getD [])
    else .error ("Failed to get generation ID from LumaLabs response".data)

/-- Model of DreamVideoGenerator.extendVideo: one POST referencing the
first job as keyframe frame0, whose scripted outcome either yields the
extension generation id or throws. -/
def extendVideo (resp : NetResponse) : Except JSStr JSStr :=
  match resp with
  | .netErr m => .error m
  | .httpErr status body =>
    .error ("LumaLabs API error (extend): ".data ++ natToJS status ++ " - ".data ++ body)
  | .ok data =>
    if truthyOS data.id then .ok (data.id.getD [])
    else .error ("Failed to get extension generation ID from LumaLabs response".data)

/-- The STARTING event generateVideo emits before submission. -/
def evStarting : VideoGenerationProgress :=
  ⟨.starting, "Starting video generation...".data, some 5, none, none, none⟩

/-- The GENERATING event generateVideo emits after submission. -/
def evGenerating20 : VideoGenerationProgress :=
  ⟨.generating, "AI is creating your dream video...".data, some 20, none, none, some 120⟩

/-- The GENERATING event generateVideo emits before the extension stage. -/
def evExtending : VideoGenerationProgress :=
  ⟨.generating, "Extending video with additional content...".data, some 60, none, none, none⟩

/-- The COMPLETED event generateVideo emits on success. -/
def evCompleted : VideoGenerationProgress :=
  ⟨.completed, "Video generated successfully!".data, some 100, none, none, none⟩

/-- An ERROR event with the given message. -/
def evError (m : JSStr) : VideoGenerationProgress :=
  ⟨.error, m, none, none, none, none⟩

/-- Outcome of a generateVideo call: the returned video or the thrown
error message, the progress events emitted, the number of network calls
made and the number of sleeps taken. -/
structure GenOutcome where
  result : Except JSStr GeneratedVideo
  events : List VideoGenerationProgress
  netCalls : Nat
  sleeps : Nat
deriving DecidableEq

/-- The body of the try block of generateVideo: submit, poll, and
optionally extend and poll again, threading scripted responses. -/
def genBody (processed extP : JSStr) (extendMode : Bool) (maxA interval : Nat)
    (createResp : NetResponse) (poll1 : Nat → NetResponse)
    (extendResp : NetResponse) (poll2 : Nat → NetResponse) : GenOutcome :=
  match createGeneration createResp with
  | .error e => ⟨.error e, [evStarting], 1, 0⟩
  | .ok gid =>
    let p1 := pollForCompletion maxA interval poll1
    match p1.result with
    | .error e =>
      ⟨.error e, evStarting :: evGenerating20 :: p1.events, 1 + p1.gets, p1.sleeps⟩
    | .ok url1 =>
      if extendMode then
        match extendVideo extendResp with
        | .error e =>
          ⟨.error e, evStarting :: evGenerating20 :: p1.events ++ [evExtending],
            2 + p1.gets, p1.sleeps⟩
        | .ok gid2 =>
          let p2 := pollForCompletion maxA interval poll2
          match p2.result with
          | .error e =>
            ⟨.error e, evStarting :: evGenerating20 :: p1.events ++ evExtending :: p2.events,
              2 + p1.gets + p2.gets, p1.sleeps + p2.sleeps⟩
          | .ok url2 =>
            ⟨.ok ⟨url2, gid2, processed, some extP⟩,
              evStarting :: evGenerating20 :: p1.events ++ evExtending :: p2.events,
              2 + p1.gets + p2.gets, p1.sleeps + p2.sleeps⟩
      else
        ⟨.ok ⟨url1, gid, processed, none⟩, evStarting :: evGenerating20 :: p1.events,
          1 + p1.gets, p1.sleeps⟩

/-- Model of DreamVideoGenerator.generateVideo (part_005 variant): the
empty-prompt guard notifies ERROR and throws; otherwise the body runs
and on any thrown error the catch block notifies ERROR with the
prefixed message and rethrows, while on success a COMPLETED event with
progress 100 is emitted. -/
def generateVideo (prompt : JSStr) (extendMode : Bool) (extensionPrompt : Option JSStr)
    (maxA interval : Nat) (createResp : NetResponse) (poll1 : Nat → NetResponse)
    (extendResp : NetResponse) (poll2 : Nat → NetResponse) : GenOutcome :=
  if (jsTrim prompt).isEmpty then
    ⟨.error ("Video prompt cannot be empty".data),
      [evError ("Video prompt cannot be empty".data)], 0, 0⟩
  else
    let pr := splitForExtend prompt extendMode extensionPrompt
    let b := genBody pr.1 pr.2 extendMode maxA interval createResp poll1 extendResp poll2
    match b.result with
    | .ok v => ⟨.ok v, b.events ++ [evCompleted], b.netCalls, b.sleeps⟩
    | .error e =>
      ⟨.error e, b.events ++ [evError ("Video generation failed: ".data ++ e)],
        b.netCalls, b.sleeps⟩

/-! ## The prompt-enhancement service (DreamEnhancementService) -/

/-- The EnhancementStatus enum of the source. -/
inductive EnhancementStatus where
  | idle
  | enhancing
  | completed
  | error
deriving DecidableEq

/-- The EnhancementResult returned by enhanceDream. -/
structure EnhancementResult where
  status : EnhancementStatus
  originalPrompt : JSStr
  enhancedPrompt : Option JSStr
  error : Option JSStr
deriving DecidableEq

/-- The EnhancementProgress snapshot broadcast to listeners. -/
structure EnhancementProgress where
  status : EnhancementStatus
  message : JSStr
  progress : Option Nat
deriving DecidableEq

/-- The outcome of the single chat-completions POST, as scripted by the
oracle: a rejected promise with an error message, a non-2xx response
with its status and the optional error fields of its JSON body (both
absent when the body fails to parse), or a 2xx response with the
optional completion content choices[0].message.content. -/
inductive OpenAINet where
  | netErr (msg : JSStr)
  | httpErr (status : Nat) (errMessage : Option JSStr) (message : Option JSStr)
  | ok (content : Option JSStr)

/-- Outcome of an enhanceDream call: the returned result object, the
progress events emitted and the number of network calls made. -/
structure EnhanceOutcome where
  result : EnhancementResult
  events : List EnhancementProgress
  calls : Nat
deriving DecidableEq

/-- The message classification of the catch block of enhanceDream. -/
def classifyEnhanceError (m : JSStr) : JSStr :=
  if hasInfixB ("quota".data) m || hasInfixB ("billing".data) m then
    "OpenAI quota exceeded or billing issue".data
  else if hasInfixB ("network".data) m || hasInfixB ("fetch".data) m then
    "Network error - please check your connection".data
  else if hasInfixB ("API key".data) m then
    "Invalid OpenAI API key".data
  else m

/-- The ENHANCING event emitted before the network call. -/
def evEnhancing : EnhancementProgress :=
  ⟨.enhancing, "Transforming dream into cinematic prompt...".data, some 30⟩

/-- The outcome built by the catch block of enhanceDream: an ERROR
result carrying the classified message, after the ENHANCING event and
an ERROR event, with the one network call counted. -/
def enhanceCatch (input m : JSStr) : EnhanceOutcome :=
  ⟨⟨.error, input, none, some m⟩, [evEnhancing, ⟨.error, m, none⟩], 1⟩

/-- Model of DreamEnhancementService.enhanceDream: validation of the
trimmed input and of the API key before any network call, then one POST
whose scripted outcome is normalized into an EnhancementResult.  The
JSON-or-plain-text parse of the completion keeps the raw trimmed
content in every branch, as in the source. -/
def enhanceDream (input apiKey : JSStr) (net : OpenAINet) : EnhanceOutcome :=
  if (jsTrim input).isEmpty then
    ⟨⟨.error, input, none, some ("Dream description cannot be empty".data)⟩,
      [⟨.error, "Dream description cannot be empty".data, none⟩], 0⟩
  else if apiKey.isEmpty then
    ⟨⟨.error, input, none, some ("OpenAI API key not configured".data)⟩,
      [⟨.error, "Enhancement service not configured".data, none⟩], 0⟩
  else
    match net with
    | .netErr m => enhanceCatch input (classifyEnhanceError m)
    | .httpErr st em mm =>
      enhanceCatch input (classifyEnhanceError
        ("OpenAI API error: ".data ++ natToJS st ++ " - ".data ++
          jsOrO em (jsOrO mm ("Unknown error".data))))
    | .ok content =>
      let raw := content.map jsTrim
      if truthyOS raw then
        ⟨⟨.completed, input, raw, none⟩,
          [evEnhancing, ⟨.completed, "Dream enhanced successfully!".data, some 100⟩], 1⟩
      else
        enhanceCatch input (classifyEnhanceError ("No response from OpenAI".data))

/-! ## The progress notification bus (notifyProgress) -/

/-- Model of DreamVideoGenerator.notifyProgress: each listener is
invoked inside its own try block, so a listener exception is caught and
logged and the iteration continues.  Listeners are identified by a tag
and may succeed or throw on a given event; the returned list is the
tags of the invoked listeners, in invocation order. -/
def notifyProgressIsolated {α : Type} : List (Nat × (α → Except JSStr Unit)) → α → List Nat
  | [], _ => []
  | (i, l) :: rest, e =>
    match l e with
    | .ok _ => i :: notifyProgressIsolated rest e
    | .error _ => i :: notifyProgressIsolated rest e

/-- Model of DreamEnhancementService.notifyProgress: the forEach has no
try block, so a listener exception escapes and stops the iteration.
Returns the tags of the invoked listeners in invocation order, together
with the escaped exception if any. -/
def notifyProgressPropagating {α : Type} :
    List (Nat × (α → Except JSStr Unit)) → α → List Nat × Option JSStr
  | [], _ => ([], none)
  | (i, l) :: rest, e =>
    match l e with
    | .ok _ =>
      let r := notifyProgressPropagating rest e
      (i :: r.1, r.2)
    | .error m => ([i], some m)

/-- A listener that throws on every event. -/
def throwingListener : Unit → Except JSStr Unit := fun _ => .error ("listener exception".data)

/-- A listener that returns normally on every event. -/
def plainListener : Unit → Except JSStr Unit := fun _ => .ok ()

/-! ## Module-level generator instances (global progress tracking) -/

/-- The module-level state of the video-generator helpers: for each
instance identifier, its registered listener tags in registration
order, the next fresh instance identifier, and the instance currently
held by the globalGenerator variable. -/
structure VideoGeneratorState where
  listenersOf : Nat → List Nat
  nextId : Nat
  globalGen : Option Nat

/-- Construction of a new DreamVideoGenerator: a fresh instance
identifier with an empty listener list. -/
def newGeneratorId (s : VideoGeneratorState) : Nat × VideoGeneratorState :=
  (s.nextId,
    ⟨fun i => if i = s.nextId then [] else s.listenersOf i, s.nextId + 1, s.globalGen⟩)

/-- Model of DreamVideoGenerator.onProgress on a given instance: pushes
the callback onto that instance. -/
def onProgressInstance (s : VideoGeneratorState) (g : Nat) (cb : Nat) : VideoGeneratorState :=
  ⟨fun i => if i = g then s.listenersOf g ++ [cb] else s.listenersOf i, s.nextId, s.globalGen⟩

/-- Model of the exported onVideoGenerationProgress: registers the
callback on the current global generator, creating a temporary one when
none exists, and returns the unsubscribe handle, which names the
instance subscribed to and the callback. -/
def onVideoGenerationProgress (s : VideoGeneratorState) (cb : Nat) :
    VideoGeneratorState × (Nat × Nat) :=
  match s.globalGen with
  | some g => (onProgressInstance s g cb, (g, cb))
  | none =>
    let gs := newGeneratorId s
    let s2 : VideoGeneratorState := ⟨gs.2.listenersOf, gs.2.nextId, some gs.1⟩
    (onProgressInstance s2 gs.1 cb, (gs.1, cb))

/-- Model of the exported generateDreamVideoWithProgress, restricted to
its effect on the module-level state: it overwrites globalGenerator
with a newly constructed instance and starts the generation on that
instance; returns the new state and the instance the generation
notifies. -/
def generateDreamVideoWithProgress (s : VideoGeneratorState) : VideoGeneratorState × Nat :=
  let gs := newGeneratorId s
  (⟨gs.2.listenersOf, gs.2.nextId, some gs.1⟩, gs.1)

/-- Model of the unsubscribe closure returned by onProgress: filters the
callback out of the listener list of the instance it closed over. -/
def unsubscribeHandle (s : VideoGeneratorState) (h : Nat × Nat) : VideoGeneratorState :=
  ⟨fun i => if i = h.1 then (s.listenersOf h.1).filter (fun c => c != h.2) else s.listenersOf i,
    s.nextId, s.globalGen⟩

/-- Reachable module-level states: the instance held by globalGenerator
was allocated earlier, so its identifier is below the fresh counter. -/
def wfState (s : VideoGeneratorState) : Prop :=
  ∀ g, s.globalGen = some g → g < s.nextId

/-! ## Spec-side definitions and concrete fixtures -/

/-- A scripted poll response that does not carry a terminal status: a
non-2xx response, or a 2xx response whose state is neither
terminal-success nor terminal-failure. -/
def NonTerminalResp (r : NetResponse) : Prop :=
  (∃ s b, r = NetResponse.httpErr s b) ∨
  ∃ d, r = NetResponse.ok d ∧ isSuccessState d.state = false ∧ isFailureState d.state = false

/-- The progress value claimed by the specification for a poll attempt:
baseline 20 + (attempt / maxPollAttempts) * 70, reduced to at most 40
when queued, raised to at least 50 when processing or generating, set
to 95 on terminal success. -/
def claimedPollProgress (attempt maxA : Nat) (st : Option JSStr) : ℚ :=
  let base : ℚ := 20 + ((attempt : ℚ) / (maxA : ℚ)) * 70
  if isQueuedState st then min base 40
  else if isProcessingState st then max base 50
  else if isSuccessState st then 95
  else base

/-- A 2xx poll body with state failed and a content-policy failure
reason. -/
def failedPolicyResponse : LumaGenerationResponse :=
  ⟨none, some ("failed".data), none, none, some ("content policy violation".data), none⟩

/-- A 2xx poll body with state processing. -/
def processingResponse : LumaGenerationResponse :=
  ⟨none, some ("processing".data), none, none, none, none⟩

/-- A 2xx poll body with state queued. -/
def queuedResponse : LumaGenerationResponse :=
  ⟨none, some ("queued".data), none, none, none, none⟩

/-- A 2xx poll body with a terminal-success state but no asset url
anywhere in the body. -/
def completedNoUrlResponse : LumaGenerationResponse :=
  ⟨none, some ("completed".data), none, none, none, none⟩

/-- A 2xx poll body with a terminal-success state and assets.url set. -/
def completedUrlResponse : LumaGenerationResponse :=
  ⟨none, some ("completed".data), some ⟨none, some ("https://x/video.mp4".data), none⟩,
    none, none, none⟩

/-- The module-level state before any generator exists. -/
def initialVGState : VideoGeneratorState := ⟨fun _ => [], 0, none⟩

/-- A 2xx submission body carrying only a generation id. -/
def okIdResponse : LumaGenerationResponse :=
  ⟨some ("g".data), none, none, none, none, none⟩

/-! ## Shared helper lemmas -/

/-- The last element of a list with one element appended. -/
theorem getLast_append_singleton {α : Type} (l : List α) (a : α) :
    (l ++ [a]).getLast? = some a := List.getLast?_concat l

/-! ## C4: extractVideoUrl precedence -/

/-- C4: for every upstream response object, extractVideoUrl returns the
first present (non-empty) field in the fixed order assets.video,
assets.url, assets.videos.url, result.url, even when several candidates
are populated simultaneously, and none when no candidate is present. -/
theorem extractVideoUrl_precedence :
    ∀ data : LumaGenerationResponse, extractVideoUrl data = firstPresentUrl data := by
  intro data
  unfold extractVideoUrl firstPresentUrl urlCandidates
  cases h1 : truthyOS (data.assets.bind LumaAssets.video) <;>
    cases h2 : truthyOS (data.assets.bind LumaAssets.url) <;>
      cases h3 : truthyOS ((data.assets.bind LumaAssets.videos).bind UrlHolder.url) <;>
        cases h4 : truthyOS (data.result.bind UrlHolder.url) <;>
          simp [List.find?, h1, h2, h3, h4, Option.join]

/-! ## C2: generateVideo on expected failure paths -/

/-- C2 (amended): every generateVideo call either returns a video, or
rejects with a thrown error after emitting, as its final progress
event, an ERROR event whose message carries the error (verbatim for the
empty-prompt guard, prefixed with Video generation failed otherwise);
expected failures never yield a success result.  This covers the empty
prompt, an upstream non-2xx response, a missing generation id, a
terminal failure surfaced by the poll loop and poll-budget
exhaustion. -/
theorem generateVideo_failures_emit_error_and_reject :
    ∀ (prompt : JSStr) (em : Bool) (ep : Option JSStr) (maxA interval : Nat)
      (c : NetResponse) (p1 : Nat → NetResponse) (er : NetResponse) (p2 : Nat → NetResponse),
      (∃ v, (generateVideo prompt em ep maxA interval c p1 er p2).result = .ok v) ∨
      (∃ e, (generateVideo prompt em ep maxA interval c p1 er p2).result = .error e ∧
        ∃ ev, (generateVideo prompt em ep maxA interval c p1 er p2).events.getLast? = some ev ∧
          ev.status = VideoGenerationStatus.error ∧
          (ev.message = e ∨ ev.message = "Video generation failed: ".data ++ e)) := by
  intro prompt em ep maxA interval c p1 er p2
  unfold generateVideo
  by_cases hp : (jsTrim prompt).isEmpty
  · simp only [hp, if_true]
    exact Or.inr ⟨_, rfl, evError _, rfl, rfl, Or.inl rfl⟩
  · simp only [hp, if_false, Bool.false_eq_true]
    cases hres : (genBody (splitForExtend prompt em ep).1 (splitForExtend prompt em ep).2
        em maxA interval c p1 er p2).result with
    | ok v => exact Or.inl ⟨v, by simp [hres]⟩
    | error e =>
      refine Or.inr ⟨e, by simp [hres], evError ("Video generation failed: ".data ++ e),
        ?_, rfl, Or.inr rfl⟩
      simp [hres, getLast_append_singleton]

/-- C2 counterexample: on the expected failure path of an empty prompt,
generateVideo does not complete with a typed ERROR result object; it
throws (modelled as Except.error carrying the thrown message). -/
theorem generateVideo_empty_prompt_throws :
    (generateVideo [] false none 3 5 (.netErr []) (fun _ => .netErr [])
        (.netErr []) (fun _ => .netErr [])).result =
      .error ("Video prompt cannot be empty".data) := by rfl

/-! ## C1: terminal-failure status during polling -/

/-- C1 code behaviour at the failing input: with maxPollAttempts = 3 and
every poll returning a 2xx body with state failed and failure_reason
content policy violation, the loop performs all 3 GET attempts rather
than stopping after the first, because the terminal-failure throw is
caught by the retry catch block; the reason is surfaced only because
the final attempt also reads the failure.  When the failure status is
observed on the first attempt only and later polls report processing,
the reason is lost entirely and the loop ends with the timeout
message. -/
theorem pollForCompletion_failure_status_keeps_polling :
    (pollForCompletion 3 5 (fun _ => .ok failedPolicyResponse)).gets = 3 ∧
    (pollForCompletion 3 5 (fun _ => .ok failedPolicyResponse)).result =
      .error ("Video generation failed: content policy violation".data) ∧
    (pollForCompletion 3 5
        (fun i => if i = 0 then .ok failedPolicyResponse else .ok processingResponse)).result =
      .error (timeoutMessage 3) := by decide

/-! ## C3: poll budget and immediate success -/

/-- Inductive argument for the poll budget: a run of the loop with a
given number of remaining iterations, in which every attempt it can
still make reads a non-terminal scripted response, performs exactly one
GET per remaining iteration and ends in the timeout throw. -/
theorem pollAux_timeout (maxA interval : Nat) (script : Nat → NetResponse) :
    ∀ remaining, remaining ≤ maxA →
      (∀ i, maxA - remaining ≤ i → i < maxA → NonTerminalResp (script i)) →
      (pollAux maxA interval script remaining).result = .error (timeoutMessage maxA) ∧
      (pollAux maxA interval script remaining).gets = remaining := by
  intro remaining
  induction remaining with
  | zero => intro _ _; exact ⟨rfl, rfl⟩
  | succ r ih =>
    intro hle hsc
    have hmaxpos : 0 < maxA := lt_of_lt_of_le (Nat.succ_pos r) hle
    have hattempt : maxA - (r + 1) < maxA := Nat.sub_lt hmaxpos (Nat.succ_pos r)
    have hrec := ih (Nat.le_of_succ_le hle)
      (fun i hi1 hi2 => hsc i (le_trans (Nat.sub_le_sub_left (Nat.le_succ r) maxA) hi1) hi2)
    rcases hsc (maxA - (r + 1)) le_rfl hattempt with ⟨s, b, hr⟩ | ⟨d, hr, hs, hf⟩
    · simp only [pollAux, hr]
      exact ⟨hrec.1, by simp [hrec.2]⟩
    · simp only [pollAux, hr, hs, hf, Bool.false_eq_true, if_false]
      exact ⟨hrec.1, by simp [hrec.2]⟩

/-- C3 (amended): for every sequence of upstream poll responses with no
terminal status, the poll loop performs exactly maxPollAttempts GET
attempts and then fails with the timeout error; and when the very first
poll reads a terminal-success status from which a video url is
extractable, the loop returns that url after that single GET. -/
theorem pollForCompletion_budget_and_first_success :
    (∀ (maxA interval : Nat) (script : Nat → NetResponse),
      (∀ i, i < maxA → NonTerminalResp (script i)) →
      (pollForCompletion maxA interval script).result = .error (timeoutMessage maxA) ∧
      (pollForCompletion maxA interval script).gets = maxA) ∧
    (∀ (maxA interval : Nat) (script : Nat → NetResponse) (d : LumaGenerationResponse)
      (url : JSStr), 0 < maxA → script 0 = NetResponse.ok d →
      isSuccessState d.state = true → extractVideoUrl d = some url →
      (pollForCompletion maxA interval script).result = .ok url ∧
      (pollForCompletion maxA interval script).gets = 1) := by
  constructor
  · intro maxA interval script hsc
    exact pollAux_timeout maxA interval script maxA le_rfl (fun i _ hi2 => hsc i hi2)
  · intro maxA interval script d url hpos h0 hs hurl
    obtain ⟨m, rfl⟩ : ∃ m, maxA = m + 1 := ⟨maxA - 1, by omega⟩
    have hzero : m + 1 - (m + 1) = 0 := Nat.sub_self (m + 1)
    unfold pollForCompletion
    simp [pollAux, hzero, h0, hs, hurl]

/-- C3 witness: with maxPollAttempts = 3 and the state constantly
processing the loop performs exactly 3 polls and times out, and with a
completed first response carrying assets.url the loop returns that url
after one poll. -/
theorem pollForCompletion_budget_and_first_success_witness :
    ((pollForCompletion 3 5 (fun _ => .ok processingResponse)).result =
        .error (timeoutMessage 3) ∧
      (pollForCompletion 3 5 (fun _ => .ok processingResponse)).gets = 3) ∧
    ((pollForCompletion 100 5 (fun _ => .ok completedUrlResponse)).result =
        .ok ("https://x/video.mp4".data) ∧
      (pollForCompletion 100 5 (fun _ => .ok completedUrlResponse)).gets = 1) :=
  ⟨pollForCompletion_budget_and_first_success.1 3 5 _
      (fun i _ => Or.inr ⟨processingResponse, rfl, by decide, by decide⟩),
    pollForCompletion_budget_and_first_success.2 100 5 _ completedUrlResponse _
      (by decide) rfl (by decide) (by decide)⟩

/-- C3 counterexample: a first poll that observes a terminal-success
status whose body carries no asset url does not make the loop return
after that single GET; the thrown missing-url error is caught and the
loop polls again. -/
theorem pollForCompletion_first_success_without_url_polls_again :
    isSuccessState completedNoUrlResponse.state = true ∧
    (pollForCompletion 2 5 (fun _ => .ok completedNoUrlResponse)).gets = 2 ∧
    (pollForCompletion 2 5 (fun _ => .ok completedNoUrlResponse)).result =
      .error ("Video URL not found in completed response".data) := by decide

/-! ## C8: deterministic progress computation -/

/-- Inductive argument that every progress event the poll loop emits is
the event built for some attempt that read a 2xx response, from that
attempt index and the observed state. -/
theorem pollAux_events_mem (maxA interval : Nat) (script : Nat → NetResponse) :
    ∀ remaining, remaining ≤ maxA →
      ∀ e ∈ (pollAux maxA interval script remaining).events,
        ∃ i d, i < maxA ∧ script i = NetResponse.ok d ∧
          e = mkPollEvent i maxA interval d.state := by
  intro remaining
  induction remaining with
  | zero => intro _ e he; simp [pollAux] at he
  | succ r ih =>
    intro hle e he
    have hattempt : maxA - (r + 1) < maxA :=
      Nat.sub_lt (lt_of_lt_of_le (Nat.succ_pos r) hle) (Nat.succ_pos r)
    have ih2 := ih (Nat.le_of_succ_le hle)
    cases hsc : script (maxA - (r + 1)) with
    | netErr m =>
      simp only [pollAux, hsc] at he
      by_cases h0 : r = 0
      · simp [h0] at he
      · simp only [h0, if_false] at he
        exact ih2 e he
    | httpErr s b =>
      simp only [pollAux, hsc] at he
      exact ih2 e he
    | ok d =>
      simp only [pollAux, hsc] at he
      by_cases hsucc : isSuccessState d.state = true
      · cases hurl : extractVideoUrl d with
        | some url =>
          simp [hsucc, hurl] at he
          exact ⟨maxA - (r + 1), d, hattempt, hsc, he⟩
        | none =>
          by_cases h0 : r = 0
          · subst h0
            simp [hsucc, hurl] at he
            exact ⟨maxA - 1, d, hattempt, hsc, he⟩
          · simp [hsucc, hurl, h0] at he
            rcases he with he | he
            · exact ⟨maxA - (r + 1), d, hattempt, hsc, he⟩
            · exact ih2 e he
      · by_cases hfail : isFailureState d.state = true
        · by_cases h0 : r = 0
          · subst h0
            simp [hsucc, hfail] at he
            exact ⟨maxA - 1, d, hattempt, hsc, he⟩
          · simp [hsucc, hfail, h0] at he
            rcases he with he | he
            · exact ⟨maxA - (r + 1), d, hattempt, hsc, he⟩
            · exact ih2 e he
        · simp [hsucc, hfail] at he
          rcases he with he | he
          · exact ⟨maxA - (r + 1), d, hattempt, hsc, he⟩
          · exact ih2 e he

/-- C8: every progress event the poll loop reports for an attempt that
read a 2xx response carries status GENERATING, the one-based attempt
counter, and a progress value equal to the rounding of the baseline
20 + (attempt / maxPollAttempts) * 70 reduced to at most 40 when the
state is queued, raised to at least 50 when processing or generating,
and set to 95 on terminal success, together with an estimated time
remaining of max(120 - attempt * pollInterval, 10); 100 is reported
only by the final completion event of generateVideo. -/
theorem pollForCompletion_progress_formula :
    (∀ (maxA interval : Nat) (script : Nat → NetResponse) (e : VideoGenerationProgress),
      e ∈ (pollForCompletion maxA interval script).events →
      ∃ i d, i < maxA ∧ script i = NetResponse.ok d ∧
        e.status = VideoGenerationStatus.generating ∧
        e.attempt = some (i + 1) ∧ e.maxAttempts = some maxA ∧
        e.progress = some (jsRound (claimedPollProgress i maxA d.state)) ∧
        e.estimatedTimeRemaining = some (max ((120 : Int) - (i : Int) * (interval : Int)) 10)) ∧
    (∀ (prompt : JSStr) (em : Bool) (ep : Option JSStr) (maxA interval : Nat)
      (c : NetResponse) (p1 : Nat → NetResponse) (er : NetResponse) (p2 : Nat → NetResponse),
      (∃ v, (generateVideo prompt em ep maxA interval c p1 er p2).result = Except.ok v) →
      (generateVideo prompt em ep maxA interval c p1 er p2).events.getLast? = some evCompleted ∧
      evCompleted.progress = some 100) := by
  constructor
  · intro maxA interval script e he
    obtain ⟨i, d, hi, hsc, hev⟩ :=
      pollAux_events_mem maxA interval script maxA le_rfl e he
    subst hev
    exact ⟨i, d, hi, hsc, rfl, rfl, rfl, rfl, rfl⟩
  · intro prompt em ep maxA interval c p1 er p2 hex
    obtain ⟨v, hv⟩ := hex
    by_cases hp : (jsTrim prompt).isEmpty
    · rw [generateVideo] at hv
      simp [hp] at hv
    · rw [generateVideo] at hv ⊢
      cases hres : (genBody (splitForExtend prompt em ep).1 (splitForExtend prompt em ep).2
          em maxA interval c p1 er p2).result with
      | error e => simp [hp, hres] at hv
      | ok w =>
        simp only [hp, if_false, Bool.false_eq_true, hres]
        exact ⟨getLast_append_singleton _ _, rfl⟩

/-- C8 witness: on the second poll attempt of a run that keeps reading
state queued with maxPollAttempts 2 and pollInterval 5, the reported
event matches the claimed formula. -/
theorem pollForCompletion_progress_formula_witness :
    ∃ i d, i < 2 ∧ (fun _ : Nat => NetResponse.ok queuedResponse) i = NetResponse.ok d ∧
      (mkPollEvent 1 2 5 (some ("queued".data))).status = VideoGenerationStatus.generating ∧
      (mkPollEvent 1 2 5 (some ("queued".data))).attempt = some (i + 1) ∧
      (mkPollEvent 1 2 5 (some ("queued".data))).maxAttempts = some 2 ∧
      (mkPollEvent 1 2 5 (some ("queued".data))).progress =
        some (jsRound (claimedPollProgress i 2 d.state)) ∧
      (mkPollEvent 1 2 5 (some ("queued".data))).estimatedTimeRemaining =
        some (max ((120 : Int) - (i : Int) * (5 : Int)) 10) :=
  pollForCompletion_progress_formula.1 2 5 (fun _ => NetResponse.ok queuedResponse)
    (mkPollEvent 1 2 5 (some ("queued".data))) (by
      have hev : (pollForCompletion 2 5 (fun _ => NetResponse.ok queuedResponse)).events =
          [mkPollEvent 0 2 5 (some ("queued".data)),
           mkPollEvent 1 2 5 (some ("queued".data))] := rfl
      rw [hev]
      exact List.mem_cons_of_mem _ (List.mem_singleton.mpr rfl))

/-! ## C5: empty or whitespace-only input -/

/-- C5: for every input whose trim is empty, enhanceDream makes no
network call and returns an ERROR result at once, and generateVideo
makes no network call, takes no polling sleep, emits exactly one ERROR
event and throws at once. -/
theorem empty_input_no_network_immediate_error :
    ∀ (s apiKey : JSStr) (net : OpenAINet) (em : Bool) (ep : Option JSStr)
      (maxA interval : Nat) (c : NetResponse) (p1 : Nat → NetResponse)
      (er : NetResponse) (p2 : Nat → NetResponse),
      (jsTrim s).isEmpty = true →
      (enhanceDream s apiKey net).calls = 0 ∧
      (enhanceDream s apiKey net).result.status = EnhancementStatus.error ∧
      (enhanceDream s apiKey net).events =
        [⟨EnhancementStatus.error, "Dream description cannot be empty".data, none⟩] ∧
      (generateVideo s em ep maxA interval c p1 er p2).netCalls = 0 ∧
      (generateVideo s em ep maxA interval c p1 er p2).sleeps = 0 ∧
      (generateVideo s em ep maxA interval c p1 er p2).result =
        .error ("Video prompt cannot be empty".data) ∧
      (generateVideo s em ep maxA interval c p1 er p2).events =
        [evError ("Video prompt cannot be empty".data)] := by
  intro s apiKey net em ep maxA interval c p1 er p2 h
  rw [enhanceDream.eq_def, generateVideo]
  simp [h]

/-- C5 witness: a whitespace-only input takes the validation path in
both operations. -/
theorem empty_input_no_network_immediate_error_witness :
    (jsTrim ("  ".data)).isEmpty = true ∧
    (enhanceDream ("  ".data) ("k".data) (.ok (some ("x".data)))).calls = 0 ∧
    (generateVideo ("  ".data) false none 3 5 (.ok okIdResponse)
        (fun _ => .ok completedUrlResponse) (.ok okIdResponse)
        (fun _ => .ok completedUrlResponse)).netCalls = 0 :=
  ⟨by decide,
    (empty_input_no_network_immediate_error ("  ".data) ("k".data) (.ok (some ("x".data)))
      false none 3 5 (.ok okIdResponse) (fun _ => .ok completedUrlResponse)
      (.ok okIdResponse) (fun _ => .ok completedUrlResponse) (by decide)).1,
    (empty_input_no_network_immediate_error ("  ".data) ("k".data) (.ok (some ("x".data)))
      false none 3 5 (.ok okIdResponse) (fun _ => .ok completedUrlResponse)
      (.ok okIdResponse) (fun _ => .ok completedUrlResponse) (by decide)).2.2.2.1⟩

/-! ## C9: enhanceDream with non-empty input -/

/-- C9 (amended): for every non-empty input with a configured API key,
enhanceDream makes exactly one network call and returns either a
COMPLETED result whose enhancedPrompt is non-empty, or an ERROR result
whose error field is populated; with a missing API key it makes no
network call and returns an ERROR result. -/
theorem enhanceDream_one_call_completed_or_error :
    ∀ (input apiKey : JSStr) (net : OpenAINet),
      (jsTrim input).isEmpty = false → apiKey.isEmpty = false →
      (enhanceDream input apiKey net).calls = 1 ∧
      (((enhanceDream input apiKey net).result.status = EnhancementStatus.completed ∧
        ∃ r, (enhanceDream input apiKey net).result.enhancedPrompt = some r ∧
          r.isEmpty = false) ∨
       ((enhanceDream input apiKey net).result.status = EnhancementStatus.error ∧
        ((enhanceDream input apiKey net).result.error).isSome = true)) := by
  intro input apiKey net h1 h2
  rw [enhanceDream.eq_def]
  cases net with
  | netErr m => simp [h1, h2, enhanceCatch]
  | httpErr st em mm => simp [h1, h2, enhanceCatch]
  | ok content =>
    cases content with
    | none => simp [h1, h2, truthyOS, enhanceCatch]
    | some c =>
      by_cases hc : (jsTrim c).isEmpty
      · simp [h1, h2, truthyOS, hc, enhanceCatch]
      · simp [h1, h2, truthyOS, hc, enhanceCatch]
        exact fun hnil => hc (by simp [hnil])

/-- C9 witness: a configured key and a 2xx completion with non-empty
content yield one call and a COMPLETED result with non-empty content. -/
theorem enhanceDream_one_call_completed_or_error_witness :
    (enhanceDream ("dream".data) ("k".data) (.ok (some (" nice ".data)))).calls = 1 ∧
    (((enhanceDream ("dream".data) ("k".data) (.ok (some (" nice ".data)))).result.status =
        EnhancementStatus.completed ∧
      ∃ r, (enhanceDream ("dream".data) ("k".data)
          (.ok (some (" nice ".data)))).result.enhancedPrompt = some r ∧
        r.isEmpty = false) ∨
     ((enhanceDream ("dream".data) ("k".data) (.ok (some (" nice ".data)))).result.status =
        EnhancementStatus.error ∧
      ((enhanceDream ("dream".data) ("k".data)
          (.ok (some (" nice ".data)))).result.error).isSome = true)) :=
  enhanceDream_one_call_completed_or_error ("dream".data) ("k".data)
    (.ok (some (" nice ".data))) (by decide) (by decide)

/-- C9 counterexample: with a missing API key the input is non-empty
and yet no network call is made, so enhanceDream does not issue exactly
one network call for every non-empty input. -/
theorem enhanceDream_missing_key_makes_no_call :
    (jsTrim ("dream".data)).isEmpty = false ∧
    (enhanceDream ("dream".data) [] (.ok (some ("x".data)))).calls = 0 ∧
    (enhanceDream ("dream".data) [] (.ok (some ("x".data)))).result.status =
      EnhancementStatus.error := by decide

/-! ## C6: listener isolation on publish -/

/-- C6 (amended): the video generator notifyProgress invokes every
registered listener in registration order and isolates listener
exceptions, while the enhancement service notifyProgress invokes
listeners in registration order but stops at the first listener that
throws and lets the exception propagate, so later listeners are not
delivered to. -/
theorem notifyProgress_isolation_and_propagation :
    (∀ (α : Type) (ls : List (Nat × (α → Except JSStr Unit))) (e : α),
      notifyProgressIsolated ls e = ls.map Prod.fst) ∧
    (∀ (α : Type) (pre post : List (Nat × (α → Except JSStr Unit))) (i : Nat)
      (l : α → Except JSStr Unit) (e : α) (m : JSStr),
      (∀ p ∈ pre, p.2 e = Except.ok ()) → l e = Except.error m →
      notifyProgressPropagating (pre ++ (i, l) :: post) e =
        (pre.map Prod.fst ++ [i], some m)) := by
  constructor
  · intro α ls e
    induction ls with
    | nil => rfl
    | cons p rest ih =>
      obtain ⟨j, f⟩ := p
      cases hf : f e with
      | ok u => simp [notifyProgressIsolated, hf, ih]
      | error m => simp [notifyProgressIsolated, hf, ih]
  · intro α pre post i l e m hpre hl
    induction pre with
    | nil => simp [notifyProgressPropagating, hl]
    | cons p rest ih =>
      obtain ⟨j, f⟩ := p
      have hp : f e = Except.ok () := hpre (j, f) (List.mem_cons_self _ _)
      have ih2 := ih (fun q hq => hpre q (List.mem_cons_of_mem _ hq))
      simp [notifyProgressPropagating, hp, ih2]

/-- C6 witness: with a well-behaved listener registered first, a
throwing one second and another well-behaved one third, the video
generator bus delivers to all three in order, while the enhancement
bus delivers only to the first two and the exception escapes. -/
theorem notifyProgress_isolation_and_propagation_witness :
    notifyProgressIsolated [(0, plainListener), (1, throwingListener), (2, plainListener)] () =
      [0, 1, 2] ∧
    notifyProgressPropagating [(0, plainListener), (1, throwingListener), (2, plainListener)] () =
      ([0, 1], some ("listener exception".data)) :=
  ⟨notifyProgress_isolation_and_propagation.1 Unit
      [(0, plainListener), (1, throwingListener), (2, plainListener)] (),
    notifyProgress_isolation_and_propagation.2 Unit [(0, plainListener)] [(2, plainListener)]
      1 throwingListener () ("listener exception".data)
      (fun p hp => by
        rcases List.mem_singleton.mp hp with rfl
        rfl)
      rfl⟩

/-- C6 counterexample: on the enhancement service bus, an exception in
the first listener prevents delivery to the listener registered after
it and propagates out of publish. -/
theorem notifyProgress_enhancement_drops_later_listeners :
    notifyProgressPropagating [(0, throwingListener), (1, plainListener)] () =
      ([0], some ("listener exception".data)) ∧
    ¬ (1 ∈ ([0] : List Nat)) := by
  exact ⟨rfl, by decide⟩

/-! ## C10: the global generator is replaced per call -/

/-- C10: every generateDreamVideoWithProgress call replaces the global
generator with a fresh instance whose listener list is empty, so a
callback registered earlier through onVideoGenerationProgress is not
among the listeners the new generation notifies, and the unsubscribe
handle returned earlier touches only the discarded instance. -/
theorem generateDreamVideoWithProgress_discards_subscriptions :
    ∀ (s : VideoGeneratorState) (cb : Nat), wfState s →
      (generateDreamVideoWithProgress (onVideoGenerationProgress s cb).1).1.globalGen =
        some (generateDreamVideoWithProgress (onVideoGenerationProgress s cb).1).2 ∧
      (generateDreamVideoWithProgress (onVideoGenerationProgress s cb).1).1.listenersOf
        (generateDreamVideoWithProgress (onVideoGenerationProgress s cb).1).2 = [] ∧
      cb ∉ (generateDreamVideoWithProgress (onVideoGenerationProgress s cb).1).1.listenersOf
        (generateDreamVideoWithProgress (onVideoGenerationProgress s cb).1).2 ∧
      (generateDreamVideoWithProgress (onVideoGenerationProgress s cb).1).2 ≠
        (onVideoGenerationProgress s cb).2.1 ∧
      (∀ i, i ≠ (onVideoGenerationProgress s cb).2.1 →
        (unsubscribeHandle (generateDreamVideoWithProgress (onVideoGenerationProgress s cb).1).1
            (onVideoGenerationProgress s cb).2).listenersOf i =
          (generateDreamVideoWithProgress (onVideoGenerationProgress s cb).1).1.listenersOf i) := by
  intro s cb hwf
  cases hg : s.globalGen with
  | none =>
    simp only [onVideoGenerationProgress, hg, generateDreamVideoWithProgress,
      newGeneratorId, onProgressInstance, unsubscribeHandle]
    refine ⟨by trivial, ?_, ?_, ?_, ?_⟩
    · simp
    · simp
    · omega
    · intro i hi
      simp [hi]
  | some g =>
    have hlt : g < s.nextId := hwf g hg
    have hne : s.nextId ≠ g := by omega
    simp only [onVideoGenerationProgress, hg, generateDreamVideoWithProgress,
      newGeneratorId, onProgressInstance, unsubscribeHandle]
    refine ⟨by trivial, ?_, ?_, ?_, ?_⟩
    · simp [hne]
    · simp [hne]
    · omega
    · intro i hi
      simp [hi]

/-- C10 witness: starting from the empty module state with a callback
registered first, the generation call notifies a fresh instance with no
listeners. -/
theorem generateDreamVideoWithProgress_discards_subscriptions_witness :
    (generateDreamVideoWithProgress (onVideoGenerationProgress initialVGState 7).1).1.listenersOf
      (generateDreamVideoWithProgress (onVideoGenerationProgress initialVGState 7).1).2 = [] ∧
    (generateDreamVideoWithProgress (onVideoGenerationProgress initialVGState 7).1).2 ≠
      (onVideoGenerationProgress initialVGState 7).2.1 :=
  ⟨(generateDreamVideoWithProgress_discards_subscriptions initialVGState 7
      (fun _ h => nomatch h)).2.1,
    (generateDreamVideoWithProgress_discards_subscriptions initialVGState 7
      (fun _ h => nomatch h)).2.2.2.1⟩

/-! ## C7: extend-mode prompt splitting -/

/-- A list is a Boolean prefix of itself followed by anything. -/
theorem isPrefixB_self_append : ∀ (l t : List Char), isPrefixB l (l ++ t) = true := by
  intro l
  induction l with
  | nil => intro t; rfl
  | cons c cs ih => intro t; simp [isPrefixB, ih]

/-- Scanning a string that contains no separator emits one piece: the
accumulator followed by the whole string. -/
theorem jsSplitAuxF_no_sep (sep : List Char) :
    ∀ (fuel : Nat) (B acc : List Char), hasInfixB sep B = false →
      jsSplitAuxF sep fuel B acc = [acc.reverse ++ B] := by
  intro fuel
  induction fuel with
  | zero =>
    intro B acc _
    cases B with
    | nil => simp [jsSplitAuxF]
    | cons c rest => simp [jsSplitAuxF]
  | succ f ih =>
    intro B acc h
    cases B with
    | nil => simp [jsSplitAuxF]
    | cons c rest =>
      simp only [hasInfixB, Bool.or_eq_false_iff] at h
      simp [jsSplitAuxF, h.1, ih rest (c :: acc) h.2]

/-- A string with the separator spliced into the middle contains it. -/
theorem hasInfixB_mid (sep : List Char) (hsep : sep ≠ []) (B : List Char) :
    ∀ A, hasInfixB sep (A ++ sep ++ B) = true := by
  intro A
  induction A with
  | nil =>
    obtain ⟨s0, sep', rfl⟩ : ∃ s0 sep', sep = s0 :: sep' := by
      cases sep with
      | nil => exact absurd rfl hsep
      | cons a as => exact ⟨a, as, rfl⟩
    simp only [List.nil_append, List.cons_append, hasInfixB, Bool.or_eq_true]
    left
    simpa using isPrefixB_self_append (s0 :: sep') B
  | cons c A' ih =>
    simp only [List.cons_append, hasInfixB, Bool.or_eq_true]
    right
    exact ih

/-- Scanning a string of the form A ++ sep ++ B, where no match starts
inside A and B contains no separator, splits it into exactly the piece
before the separator and the piece after it. -/
theorem jsSplitAuxF_at_sep (sep : List Char) (hsep : sep ≠ []) (B : List Char)
    (hB : hasInfixB sep B = false) :
    ∀ (A : List Char) (fuel : Nat) (acc : List Char), A.length + 1 ≤ fuel →
      (∀ k, k < A.length → isPrefixB sep (List.drop k (A ++ sep ++ B)) = false) →
      jsSplitAuxF sep fuel (A ++ sep ++ B) acc = [acc.reverse ++ A, B] := by
  intro A
  induction A with
  | nil =>
    intro fuel acc hfuel _
    obtain ⟨f, rfl⟩ : ∃ f, fuel = f + 1 := ⟨fuel - 1, by omega⟩
    obtain ⟨s0, sep', rfl⟩ : ∃ s0 sep', s0 :: sep' = sep := by
      cases sep with
      | nil => exact absurd rfl hsep
      | cons a as => exact ⟨a, as, rfl⟩
    have hpre : isPrefixB (s0 :: sep') (s0 :: (sep' ++ B)) = true := by
      simpa using isPrefixB_self_append (s0 :: sep') B
    simp only [List.nil_append, List.cons_append, jsSplitAuxF, List.append_eq, hpre, if_true]
    rw [show (s0 :: sep').length - 1 = sep'.length from by simp]
    rw [List.drop_left]
    rw [jsSplitAuxF_no_sep (s0 :: sep') f B [] hB]
    simp
  | cons c A' ih =>
    intro fuel acc hfuel hk
    obtain ⟨f, rfl⟩ : ∃ f, fuel = f + 1 := ⟨fuel - 1, by omega⟩
    have h0 : isPrefixB sep (c :: (A' ++ sep ++ B)) = false := by
      simpa using hk 0 (by simp)
    have hk2 : ∀ k, k < A'.length →
        isPrefixB sep (List.drop k (A' ++ sep ++ B)) = false := by
      intro k hklt
      have := hk (k + 1) (by simp; omega)
      simpa [List.drop_succ_cons] using this
    have hf2 : A'.length + 1 ≤ f := by
      simp only [List.length_cons] at hfuel
      omega
    simp only [List.cons_append, jsSplitAuxF, List.append_eq, h0, Bool.false_eq_true, if_false]
    rw [ih f (c :: acc) hf2 hk2]
    simp

/-- C7 (amended): in extend mode, for every prompt of the form
A*****B in which the written delimiter is the first match (no match
starts inside A), B contains no delimiter, and both trim(A) and
trim(B) are non-empty, the first-stage prompt is trim(A) and the
extension prompt is trim(B), overriding any explicitly supplied
extensionPrompt; and for every prompt without the delimiter, an
explicitly supplied non-empty extensionPrompt is used, while a missing
or empty one falls back to the fixed phrase Continue on with this
video. -/
theorem splitForExtend_delimiter_precedence :
    (∀ (A B : JSStr) (ext : Option JSStr),
      (∀ k, k < A.length → isPrefixB starSep (List.drop k (A ++ starSep ++ B)) = false) →
      hasInfixB starSep B = false →
      (jsTrim A).isEmpty = false → (jsTrim B).isEmpty = false →
      splitForExtend (A ++ starSep ++ B) true ext = (jsTrim A, jsTrim B)) ∧
    (∀ (p e : JSStr), hasInfixB starSep p = false →
      splitForExtend p true none = (jsTrim p, defaultExtensionPrompt) ∧
      splitForExtend p true (some []) = (jsTrim p, defaultExtensionPrompt) ∧
      (e.isEmpty = false → splitForExtend p true (some e) = (jsTrim p, e))) := by
  constructor
  · intro A B ext hk hB hA hBt
    have hsep : starSep ≠ [] := by decide
    have hinc : hasInfixB starSep (A ++ starSep ++ B) = true := hasInfixB_mid starSep hsep B A
    have hfuel : A.length + 1 ≤ (A ++ starSep ++ B).length := by
      simp only [List.length_append]
      have h5 : starSep.length = 5 := rfl
      omega
    have hparts : jsSplit starSep (A ++ starSep ++ B) = [A, B] := by
      unfold jsSplit
      rw [jsSplitAuxF_at_sep starSep hsep B hB A _ [] hfuel hk]
      simp
    have hinc2 : hasInfixB starSep (A ++ (starSep ++ B)) = true := by
      rw [← List.append_assoc]; exact hinc
    have hparts2 : jsSplit starSep (A ++ (starSep ++ B)) = [A, B] := by
      rw [← List.append_assoc]; exact hparts
    have hA2 : ¬ (jsTrim A = []) := by
      intro h; rw [h] at hA; simp at hA
    have hB2 : ¬ (jsTrim B = []) := by
      intro h; rw [h] at hBt; simp at hBt
    unfold splitForExtend
    simp [hinc, hinc2, hparts, hparts2, jsOrS, hA2, hB2]
  · intro p e hp
    refine ⟨by simp [splitForExtend, hp, jsOrO, jsOrS],
      by simp [splitForExtend, hp, jsOrO, jsOrS], ?_⟩
    intro he
    simp [splitForExtend, hp, jsOrO, jsOrS, he]

/-- C7 witness: the prompt A*****B with explicit extension prompt X
splits into trim(A) and trim(B) ignoring X, and a prompt without the
delimiter keeps the default continuation phrase. -/
theorem splitForExtend_delimiter_precedence_witness :
    splitForExtend (("A".data ++ starSep ++ "B".data)) true (some ("X".data)) =
      (jsTrim ("A".data), jsTrim ("B".data)) ∧
    splitForExtend ("plain".data) true none = (jsTrim ("plain".data), defaultExtensionPrompt) :=
  ⟨splitForExtend_delimiter_precedence.1 ("A".data) ("B".data) (some ("X".data))
      (by decide) (by decide) (by decide) (by decide),
    (splitForExtend_delimiter_precedence.2 ("plain".data) [] (by decide)).1⟩

/-- C7 counterexample: for the prompt *****B, that is A*****B with A
empty, the first-stage prompt is not trim(A) (the empty string): the
parts-zero-or-prompt fallback makes it the whole untrimmed prompt. -/
theorem splitForExtend_empty_first_part_falls_back :
    (splitForExtend ("*****B".data) true none).1 = "*****B".data ∧
    (splitForExtend ("*****B".data) true none).1 ≠ jsTrim [] := by decide
